import Mathlib

/-
  Verification of the Immich compatibility adapter
  (internal/immich/immich.go and server/router/immich/immich.go).

  The Go code is shallowly embedded: pure string manipulation is modelled
  over List Char, the fixed UUID regular expression is modelled as an
  explicit leftmost scanner, HTTP outcomes are modelled as an explicit
  error type, JSON payloads are modelled as parsed JSON values, and the
  stateful album operations are modelled by explicit state passing over an
  idealized upstream server state.
-/

set_option maxHeartbeats 1000000
set_option maxRecDepth 4096

/-! ## Go string helpers (strings package subset used by the adapter) -/

/-- Characters removed by Go strings.TrimSpace (ASCII whitespace subset). -/
def isGoSpace (c : Char) : Bool :=
  c == ' ' || c == '\t' || c == '\n' || c == '\r'

/-- Model of Go strings.TrimSpace. -/
def goTrimSpace (s : String) : String :=
  String.mk (((s.data.dropWhile isGoSpace).reverse.dropWhile isGoSpace).reverse)

/-- List-level prefix test; first argument is the string, second the pattern. -/
def hasPrefixL : List Char → List Char → Bool
  | _, [] => true
  | [], _ :: _ => false
  | c :: cs, p :: ps => c == p && hasPrefixL cs ps

/-- Model of Go strings.HasPrefix. -/
def goHasPre (s pat : String) : Bool :=
  hasPrefixL s.data pat.data

/-- Model of Go strings.TrimPrefix. -/
def goTrimPre (s pat : String) : String :=
  if goHasPre s pat then String.mk (s.data.drop pat.data.length) else s

/-- Model of Go strings.TrimLeft with cutset "/". -/
def trimLeftSlashes (s : String) : String :=
  String.mk (s.data.dropWhile (fun c => c == '/'))

/-- Model of Go strings.EqualFold restricted to ASCII case folding. -/
def equalFold (a b : String) : Bool :=
  a.data.map Char.toLower == b.data.map Char.toLower

/-! ## Model of the fixed UUID regular expression

  uuidPattern in the source is the fixed-length pattern
  hex8 - hex4 - [1-5]hex3 - [89abAB]hex3 - hex12 (36 characters).
  FindString returns the leftmost match; for a fixed-length pattern that is
  the match at the first starting position where the 36-character window
  fits the shape. -/

def isHexDigitCh (c : Char) : Bool :=
  (('0' ≤ c) && (c ≤ '9')) || (('a' ≤ c) && (c ≤ 'f')) || (('A' ≤ c) && (c ≤ 'F'))

def isUUIDVersionCh (c : Char) : Bool :=
  ('1' ≤ c) && (c ≤ '5')

def isUUIDVariantCh (c : Char) : Bool :=
  c == '8' || c == '9' || c == 'a' || c == 'b' || c == 'A' || c == 'B'

def isDashCh (c : Char) : Bool :=
  c == '-'

/-- The character-by-character shape of uuidPattern. -/
def uuidShape : List (Char → Bool) :=
  List.replicate 8 isHexDigitCh ++ [isDashCh] ++
  List.replicate 4 isHexDigitCh ++ [isDashCh] ++
  [isUUIDVersionCh] ++ List.replicate 3 isHexDigitCh ++ [isDashCh] ++
  [isUUIDVariantCh] ++ List.replicate 3 isHexDigitCh ++ [isDashCh] ++
  List.replicate 12 isHexDigitCh

/-- Try to match a character-predicate shape at the head of the input. -/
def matchShapeAt : List (Char → Bool) → List Char → Option (List Char)
  | [], _ => some []
  | _ :: _, [] => none
  | p :: ps, c :: cs =>
    if p c then (matchShapeAt ps cs).map (fun ms => c :: ms) else none

/-- Leftmost UUID-shaped substring of a character list, if any. -/
def findUUIDChars : List Char → Option (List Char)
  | [] => none
  | c :: cs =>
    match matchShapeAt uuidShape (c :: cs) with
    | some ms => some ms
    | none => findUUIDChars cs

/-- Model of uuidPattern.FindString, as an Option instead of the empty
    string Go uses to signal no match (a successful match is never empty). -/
def findUUIDSub (s : String) : Option String :=
  (findUUIDChars s.data).map (fun cs => String.mk cs)

/-- Model of uuidPattern.MatchString: a UUID-shaped substring occurs somewhere. -/
def uuidMatchString (s : String) : Bool :=
  (findUUIDChars s.data).isSome

/-! ## Errors and the endpoint prober (doJSONWithFallback) -/

/-- The error values the adapter can produce for one physical attempt.
    httpStatus models the httpStatusError concrete type (non-2xx response
    with status code and truncated body); transport models an error from
    httpClient.Do; request models an error from request construction. -/
inductive ImmichError where
  | httpStatus (statusCode : Nat) (message : String)
  | transport (message : String)
  | request (message : String)
deriving Repr, DecidableEq

/-- Model of isRetryableImmichPath: the error must be an httpStatusError
    and carry status 404 (StatusNotFound) or 405 (StatusMethodNotAllowed). -/
def isRetryableImmichPath : ImmichError → Bool
  | .httpStatus statusCode _ => statusCode == 404 || statusCode == 405
  | .transport _ => false
  | .request _ => false

/-- An attempt outcome that is an error classified retryable. -/
def retryableErr {β : Type} : Except ImmichError β → Bool
  | .error e2 => isRetryableImmichPath e2
  | .ok _ => false

/-- The loop body of doJSONWithFallback, with the accumulated lastErr made
    explicit. The attempt function gives the doJSON outcome of each path.
    The Go function returns the pair (data []byte, err error); both can be
    nil, so the result is a pair of options: first the returned data,
    second the returned error (none models a nil error, i.e. success). -/
def doJSONWithFallbackAux {β : Type} (attempt : String → Except ImmichError β) :
    List String → Option ImmichError → Option β × Option ImmichError
  | [], lastErr => (none, lastErr)
  | path :: rest, _lastErr =>
    match attempt path with
    | .ok data => (some data, none)
    | .error e2 =>
      if isRetryableImmichPath e2 then doJSONWithFallbackAux attempt rest (some e2)
      else (none, some e2)

/-- Model of doJSONWithFallback: ordered candidate paths, attempted in
    order, starting with a nil lastErr. -/
def doJSONWithFallback {β : Type} (attempt : String → Except ImmichError β)
    (paths : List String) : Option β × Option ImmichError :=
  doJSONWithFallbackAux attempt paths none

/-- A concrete outcome assignment: candidate a fails with 404 (retryable),
    candidate b succeeds, candidate c would fail fatally. -/
def probeAttemptEx : String → Except ImmichError Nat := fun path =>
  if path == "a" then .error (.httpStatus 404 "not found")
  else if path == "b" then .ok 7
  else .error (.httpStatus 500 "boom")

/-! ## JSON model (the subset of encoding/json the decoders rely on)

  Payloads are modelled as parsed JSON values. json.RawMessage values are
  modelled as JVal subtrees; the raw text of a RawMessage (used by the UUID
  scan in decodeAssetRaw) is recovered by the compact renderer below.
  Struct unmarshalling matches field tags exactly and treats an absent or
  null field as the zero value, and a wrongly typed field as an error. -/

inductive JVal where
  | null
  | boolV (b : Bool)
  | num (n : Int)
  | str (s : String)
  | arr (elems : List JVal)
  | obj (fields : List (String × JVal))

/-- Go map indexing after json.Unmarshal of an object: for duplicated keys
    the last occurrence wins. -/
def lookupGo (fields : List (String × JVal)) (key : String) : Option JVal :=
  match fields with
  | [] => none
  | (k, v) :: rest =>
    match lookupGo rest key with
    | some r => some r
    | none => if k == key then some v else none

mutual

/-- Compact rendering of a JSON value, modelling the raw bytes of a
    json.RawMessage holding that value. -/
def renderJVal : JVal → String
  | .null => "null"
  | .boolV b => if b then "true" else "false"
  | .num n => toString n
  | .str s => "\"" ++ s ++ "\""
  | .arr elems => "[" ++ renderJValList elems ++ "]"
  | .obj fields => "\x7b" ++ renderJValFields fields ++ "\x7d"

def renderJValList : List JVal → String
  | [] => ""
  | [v] => renderJVal v
  | v :: rest => renderJVal v ++ "," ++ renderJValList rest

def renderJValFields : List (String × JVal) → String
  | [] => ""
  | [(k, v)] => "\"" ++ k ++ "\":" ++ renderJVal v
  | (k, v) :: rest => "\"" ++ k ++ "\":" ++ renderJVal v ++ "," ++ renderJValFields rest

end

/-- Model of json.Unmarshal into []json.RawMessage: succeeds on an array
    (elements in order) and on null (leaving the nil slice). -/
def unmarshalRawArray : JVal → Except String (List JVal)
  | .arr elems => .ok elems
  | .null => .ok []
  | _ => .error "cannot unmarshal into RawMessage slice"

/-- Model of json.Unmarshal into map[string]json.RawMessage: succeeds on an
    object and on null (leaving the nil map). -/
def unmarshalRawObject : JVal → Except String (List (String × JVal))
  | .obj fields => .ok fields
  | .null => .ok []
  | _ => .error "cannot unmarshal into RawMessage map"

/-- The canonical Asset record of the adapter (struct Asset in the source). -/
structure Asset where
  id : String
  assetId : String
  deviceAssetId : String
  uuid : String
  originalFileName : String
  originalMimeType : String
  fileSizeInByte : Int
  type : String
deriving Repr, DecidableEq

/-- The zero Asset value (Go zero struct). -/
def zeroAsset : Asset :=
  { id := "", assetId := "", deviceAssetId := "", uuid := "",
    originalFileName := "", originalMimeType := "", fileSizeInByte := 0, type := "" }

/-- Read a string-typed struct field: absent or null gives the zero value,
    a string gives its content, any other JSON type is an unmarshal error. -/
def getStringField (fields : List (String × JVal)) (key : String) : Except String String :=
  match lookupGo fields key with
  | none => .ok ""
  | some .null => .ok ""
  | some (.str s) => .ok s
  | some _ => .error ("cannot unmarshal into string field " ++ key)

/-- Read an int64-typed struct field, analogously. -/
def getIntField (fields : List (String × JVal)) (key : String) : Except String Int :=
  match lookupGo fields key with
  | none => .ok 0
  | some .null => .ok 0
  | some (.num n) => .ok n
  | some _ => .error ("cannot unmarshal into int64 field " ++ key)

/-- Model of json.Unmarshal of one raw record into the Asset struct. -/
def unmarshalAsset : JVal → Except String Asset
  | .null => .ok zeroAsset
  | .obj fields => do
    let id ← getStringField fields "id"
    let assetId ← getStringField fields "assetId"
    let deviceAssetId ← getStringField fields "deviceAssetId"
    let uuid ← getStringField fields "uuid"
    let originalFileName ← getStringField fields "originalFileName"
    let originalMimeType ← getStringField fields "originalMimeType"
    let fileSizeInByte ← getIntField fields "fileSizeInByte"
    let ty ← getStringField fields "type"
    .ok { id := id, assetId := assetId, deviceAssetId := deviceAssetId, uuid := uuid,
          originalFileName := originalFileName, originalMimeType := originalMimeType,
          fileSizeInByte := fileSizeInByte, type := ty }
  | _ => .error "cannot unmarshal non-object into Asset"

/-- The identifier normalization statements of decodeAssetRaw, factored out
    of the match for proof convenience: fall back across the alternative
    identifier fields, strip leading slashes, then scan the raw text for a
    UUID-shaped substring when the identifier is still empty. -/
def normalizeAssetID (asset0 : Asset) (rawText : String) : String :=
  let id1 := if asset0.id == "" then asset0.assetId else asset0.id
  let id2 := if id1 == "" then asset0.deviceAssetId else id1
  let id3 := if id2 == "" then asset0.uuid else id2
  let id4 := trimLeftSlashes id3
  if id4 == "" then
    match findUUIDSub rawText with
    | some m => m
    | none => id4
  else id4

/-- Model of decodeAssetRaw. -/
def decodeAssetRaw (raw : JVal) : Except String Asset :=
  match unmarshalAsset raw with
  | .error err => .error err
  | .ok asset0 => .ok { asset0 with id := normalizeAssetID asset0 (renderJVal raw) }

/-- Model of decodeAssetSlice: decode each raw record in order, aborting on
    the first failure. -/
def decodeAssetSlice : List JVal → Except String (List Asset)
  | [] => .ok []
  | raw :: rest =>
    match decodeAssetRaw raw with
    | .error err => .error err
    | .ok asset =>
      match decodeAssetSlice rest with
      | .error err => .error err
      | .ok assets => .ok (asset :: assets)

/-- Model of decodeAssetsFromUnknown: top-level array first, then the
    assets key as an array, then the assets key as an object with an items
    array, then the top-level items key, in the same order as the source. -/
def decodeAssetsFromUnknown (data : JVal) : Except String (List Asset) :=
  match unmarshalRawArray data with
  | .ok rawArray => decodeAssetSlice rawArray
  | .error _ =>
    match unmarshalRawObject data with
    | .error err => .error err
    | .ok rawObject =>
      let fromItems :=
        match lookupGo rawObject "items" with
        | some itemsRaw =>
          match unmarshalRawArray itemsRaw with
          | .ok rawArray => decodeAssetSlice rawArray
          | .error _ => .error "failed to decode immich assets"
        | none => .error "failed to decode immich assets"
      match lookupGo rawObject "assets" with
      | some assetsRaw =>
        match unmarshalRawArray assetsRaw with
        | .ok rawArray => decodeAssetSlice rawArray
        | .error _ =>
          match unmarshalRawObject assetsRaw with
          | .ok assetsObj =>
            match lookupGo assetsObj "items" with
            | some itemsRaw =>
              match unmarshalRawArray itemsRaw with
              | .ok rawArray => decodeAssetSlice rawArray
              | .error _ => fromItems
            | none => fromItems
          | .error _ => fromItems
      | none => fromItems

/-- First non-empty string in a list, used to phrase the claim wording for
    identifier recovery. -/
def firstNonEmptyStr : List String → String
  | [] => ""
  | s :: rest => if s == "" then firstNonEmptyStr rest else s

/-- Claim-side description of identifier recovery, following the spec
    wording: first non-empty of id, assetId, deviceAssetId, uuid in that
    order, leading slashes stripped, then (if still empty) the first
    UUID-shaped substring of the raw record text, else empty. -/
def specAssetID (a : Asset) (rawText : String) : String :=
  let cand := firstNonEmptyStr [a.id, a.assetId, a.deviceAssetId, a.uuid]
  let stripped := trimLeftSlashes cand
  if stripped == "" then
    match findUUIDSub rawText with
    | some m => m
    | none => ""
  else stripped

instance {ε α : Type} [DecidableEq ε] [DecidableEq α] : DecidableEq (Except ε α) := fun x y =>
  match x, y with
  | .error e1, .error e2 =>
    if h : e1 = e2 then isTrue (by rw [h]) else isFalse (fun hc => h (Except.error.inj hc))
  | .error _, .ok _ => isFalse (fun hc => Except.noConfusion hc)
  | .ok _, .error _ => isFalse (fun hc => Except.noConfusion hc)
  | .ok a, .ok b =>
    if h : a = b then isTrue (by rw [h]) else isFalse (fun hc => h (Except.ok.inj hc))

/-! ## Reference codec (ParseReference, ExtractAssetIDFromLink) -/

/-- The adapter configuration (struct Config in the source). -/
structure Config where
  baseURL : String
  apiKey : String
  albumName : String
  albumID : String
deriving Repr, DecidableEq

/-- Model of ParseReference: strings carrying the literal prefix immich:
    yield the remainder, valid exactly when the remainder is non-empty. -/
def ParseReference (reference : String) : String × Bool :=
  if goHasPre reference "immich:" then
    let assetID := goTrimPre reference "immich:"
    (assetID, assetID != "")
  else ("", false)

/-- The components of a parsed URL the extractor reads: Host, Path and the
    query parameter values (in order of appearance; the Go code ranges over
    a map, which the model determinizes to appearance order). -/
structure GoURL where
  host : String
  path : String
  queryVals : List String
deriving Repr, DecidableEq

/-- Split a character list at the first occurrence of a pattern, dropping
    the pattern itself; none when the pattern does not occur. -/
def breakOnSubstr (pat : List Char) : List Char → Option (List Char × List Char)
  | [] => if pat.isEmpty then some ([], []) else none
  | c :: cs =>
    if hasPrefixL (c :: cs) pat then some ([], (c :: cs).drop pat.length)
    else
      match breakOnSubstr pat cs with
      | some (pref2, rest2) => some (c :: pref2, rest2)
      | none => none

/-- Segments of a character list split on a separator character. -/
def splitOnCharL (sep : Char) : List Char → List (List Char)
  | [] => [[]]
  | c :: cs =>
    if c == sep then [] :: splitOnCharL sep cs
    else
      match splitOnCharL sep cs with
      | [] => [[c]]
      | seg :: rest => (c :: seg) :: rest

/-- The value part of one key=value query segment (empty when there is no
    equals sign, as in Go url.ParseQuery). -/
def queryValOfSegment (seg : List Char) : List Char :=
  (seg.dropWhile (fun c => c != '=')).drop 1

/-- The query parameter values of a raw query string: segments split on
    the ampersand, empty segments skipped, percent-decoding not modelled. -/
def parseQueryVals (qs : List Char) : List String :=
  ((splitOnCharL '&' qs).filter (fun seg => !seg.isEmpty)).map
    (fun seg => String.mk (queryValOfSegment seg))

/-- Model of the subset of net/url.Parse the extractor depends on: links of
    the form scheme://host[/path][?query][#fragment]. A link without the
    scheme separator parses in Go with an empty Host, which the extractor
    rejects exactly as it rejects a parse error; both are modelled as none. -/
def parseURLGo (s : String) : Option GoURL :=
  match breakOnSubstr "://".data s.data with
  | none => none
  | some (_scheme, rest) =>
    let hostChars := rest.takeWhile (fun c => c != '/' && c != '?' && c != '#')
    let afterHost := rest.dropWhile (fun c => c != '/' && c != '?' && c != '#')
    let pathChars := afterHost.takeWhile (fun c => c != '?' && c != '#')
    let afterPath := afterHost.dropWhile (fun c => c != '?' && c != '#')
    let queryChars :=
      match afterPath with
      | '?' :: qs => qs.takeWhile (fun c => c != '#')
      | _ => []
    some { host := String.mk hostChars, path := String.mk pathChars,
           queryVals := parseQueryVals queryChars }

/-- First UUID-shaped substring among the query parameter values. -/
def firstUUIDInValues : List String → Option String
  | [] => none
  | v :: rest =>
    match findUUIDSub v with
    | some m => some m
    | none => firstUUIDInValues rest

/-- The tail of ExtractAssetIDFromLink after the host check: scan the URL
    path for a UUID-shaped substring, then the query values. -/
def extractFromParsedURL (parsed : GoURL) : String × Bool :=
  match findUUIDSub parsed.path with
  | some m => (m, true)
  | none =>
    match firstUUIDInValues parsed.queryVals with
    | some m => (m, true)
    | none => ("", false)

/-- Model of ExtractAssetIDFromLink. The immich:// branch of the source is
    unreachable (its guard is subsumed by the immich: prefix check before
    it) but is kept for fidelity. -/
def ExtractAssetIDFromLink (link : String) (cfg : Config) : String × Bool :=
  let link2 := goTrimSpace link
  if link2 == "" then ("", false)
  else if goHasPre link2 "immich:" then
    let assetID := trimLeftSlashes (goTrimPre link2 "immich:")
    (assetID, assetID != "")
  else if goHasPre link2 "immich://" then
    let assetID := trimLeftSlashes (goTrimPre link2 "immich://")
    (assetID, assetID != "")
  else
    match parseURLGo link2 with
    | none => ("", false)
    | some parsed =>
      if parsed.host == "" then ("", false)
      else if cfg.baseURL != "" then
        match parseURLGo cfg.baseURL with
        | none => ("", false)
        | some base =>
          if base.host == "" then ("", false)
          else if !equalFold parsed.host base.host then ("", false)
          else extractFromParsedURL parsed
      else extractFromParsedURL parsed

/-- Claim-side test that the configured base URL carries a host matching
    the given link host case-insensitively. -/
def baseHostMatches (cfg : Config) (host : String) : Bool :=
  match parseURLGo cfg.baseURL with
  | none => false
  | some base => base.host != "" && equalFold host base.host

/-- Claim-side description of generic-URL extraction, following the claim
    wording: reject unparseable links and links without a host; when a base
    URL is configured, reject unless the hosts match case-insensitively;
    otherwise return the first UUID-shaped substring of the path, and only
    when the path has none, the first one among the query values. -/
def specExtractGeneric (parsedLink : Option GoURL) (cfg : Config) : String × Bool :=
  match parsedLink with
  | none => ("", false)
  | some u =>
    if u.host == "" then ("", false)
    else if cfg.baseURL != "" && !baseHostMatches cfg u.host then ("", false)
    else
      match findUUIDSub u.path with
      | some m => (m, true)
      | none =>
        match firstUUIDInValues u.queryVals with
        | some m => (m, true)
        | none => ("", false)

/-! ## Album Binder model

  The HTTP transport and JSON decoding behind ListAlbums, CreateAlbum and
  AddAssetsToAlbum are idealized into direct operations on an explicit
  upstream server state: listing returns every stored album, creation
  appends an album with a fresh identifier carrying the requested name,
  and membership-add succeeds (2xx, duplicates accepted) exactly when the
  target album exists, failing with 404 on both the PUT and the POST
  attempt otherwise. Client construction (NewClient) only normalizes the
  base URL string and is modelled as always succeeding. -/

/-- One album record held by the modelled upstream server. -/
structure SAlbum where
  id : String
  albumName : String
  name : String
  assets : List String
deriving Repr, DecidableEq

/-- The canonical Album value decoded by the client (struct Album). -/
structure Album where
  id : String
  albumName : String
  name : String
deriving Repr, DecidableEq

/-- Model of Album.DisplayName: albumName when non-empty, else name. -/
def Album.displayName (a : Album) : String :=
  if a.albumName != "" then a.albumName else a.name

/-- State of the idealized upstream server: stored albums plus a counter
    supplying fresh album identifiers. -/
structure Server where
  albums : List SAlbum
  fresh : Nat
deriving Repr, DecidableEq

/-- The logical upstream operations the Album Binder can issue. -/
inductive Op where
  | listAlbums
  | createAlbum (name : String)
  | addAssets (albumID : String) (assetIDs : List String)
deriving Repr, DecidableEq

/-- Projection of a stored album to the decoded Album value. -/
def toAlbum (sa : SAlbum) : Album :=
  { id := sa.id, albumName := sa.albumName, name := sa.name }

/-- Model of client.ListAlbums: every stored album, decoded. -/
def listAlbumsServer (srv : Server) : List Album :=
  srv.albums.map toAlbum

/-- Model of client.CreateAlbum: append a new album with a fresh
    identifier and the requested albumName, returning its decoded value. -/
def createAlbumServer (name : String) (srv : Server) : Album × Server :=
  let sa : SAlbum :=
    { id := "album-" ++ toString srv.fresh, albumName := name, name := "", assets := [] }
  (toAlbum sa, { albums := srv.albums ++ [sa], fresh := srv.fresh + 1 })

/-- Whether the server stores an album with the given identifier. -/
def albumExists (srv : Server) (albumID : String) : Bool :=
  srv.albums.any (fun sa => sa.id == albumID)

/-- Server-side effect of a successful membership-add. -/
def addAssetsServer (srv : Server) (albumID : String) (ids : List String) : Server :=
  { srv with albums := srv.albums.map (fun sa =>
      if sa.id == albumID then { sa with assets := sa.assets ++ ids } else sa) }

/-- Model of client.AddAssetsToAlbum: an empty album identifier or an empty
    asset list is a no-op returning nil; otherwise the PUT attempt succeeds
    exactly when the album exists, and when it does not, the PUT and the
    POST fallback both fail with 404 and the last error is returned. The
    third component traces the attempted membership-add operations. -/
def AddAssetsToAlbum (albumID : String) (assetIDs : List String) (srv : Server) :
    Option String × Server × List Op :=
  if albumID == "" || assetIDs.isEmpty then (none, srv, [])
  else if albumExists srv albumID then
    (none, addAssetsServer srv albumID assetIDs, [Op.addAssets albumID assetIDs])
  else
    (some "immich request failed: 404", srv,
      [Op.addAssets albumID assetIDs, Op.addAssets albumID assetIDs])

/-- The range loop of AddAssetToAlbum: first stored album whose display
    name matches the configured name case-insensitively. -/
def findMatchingAlbum (name : String) : List Album → Option Album
  | [] => none
  | al :: rest =>
    if equalFold al.displayName name then some al else findMatchingAlbum name rest

/-- Model of AddAssetToAlbum (the Album Binder). The result carries the
    returned error (none models a nil error), the post-state of the
    upstream server, and the trace of logical upstream operations issued.
    After the name-matching loop the source re-checks whether the resolved
    album identifier is still empty and only then creates an album, so a
    matched album carrying an empty identifier also falls through to
    creation; matchedID models the albumID variable of that re-check. -/
def AddAssetToAlbum (cfg : Config) (assetID : String) (srv : Server) :
    Option String × Server × List Op :=
  if assetID == "" then (none, srv, [])
  else
    let assetID2 := trimLeftSlashes assetID
    if !uuidMatchString assetID2 then (none, srv, [])
    else if cfg.baseURL == "" || cfg.apiKey == "" then (none, srv, [])
    else if cfg.albumID == "" && cfg.albumName == "" then (none, srv, [])
    else if cfg.albumID != "" then AddAssetsToAlbum cfg.albumID [assetID2] srv
    else
      let matchedID :=
        match findMatchingAlbum cfg.albumName (listAlbumsServer srv) with
        | some al => al.id
        | none => ""
      if matchedID == "" then
        let created := createAlbumServer cfg.albumName srv
        let res := AddAssetsToAlbum created.1.id [assetID2] created.2
        (res.1, res.2.1, Op.listAlbums :: Op.createAlbum cfg.albumName :: res.2.2)
      else
        let res := AddAssetsToAlbum matchedID [assetID2] srv
        (res.1, res.2.1, Op.listAlbums :: res.2.2)

/-! ## Router fallback (server/router/immich listAssets) -/

/-- Error type of the asset-listing route: a 502 gateway error wrapping the
    internal adapter error. -/
inductive RouterError where
  | gateway (message : String) (internalErr : ImmichError)
deriving Repr, DecidableEq

/-- Model of the fallback in the listAssets route handler: the ListAssets
    outcome is consulted first; on any failure the SearchAssets logical
    operation is issued in its place, and only when that also fails is a
    gateway error (wrapping the SearchAssets error) surfaced. -/
def listAssetsHandler {ρ : Type} (listRes searchRes : Except ImmichError ρ) :
    Except RouterError ρ :=
  match listRes with
  | .ok res => .ok res
  | .error _ =>
    match searchRes with
    | .ok res => .ok res
    | .error e2 => .error (.gateway "failed to fetch immich assets" e2)

/-- Example configuration and server used by the binder witnesses. -/
def cfgEx : Config :=
  { baseURL := "https://img.example", apiKey := "k", albumName := "Memos", albumID := "" }

def srvEx : Server := { albums := [], fresh := 0 }

/-- The host-matching configuration of the claim example. -/
def cfgHostMatch : Config :=
  { baseURL := "https://photos.example", apiKey := "k", albumName := "", albumID := "" }

/-- The host-mismatching configuration of the claim example. -/
def cfgHostOther : Config :=
  { baseURL := "https://other.example", apiKey := "k", albumName := "", albumID := "" }


/-- A server already holding an album whose display name matches Memos up
    to case, used by the idempotence witness. -/
def srvWithAlbum : Server :=
  { albums := [{ id := "al-1", albumName := "memos", name := "", assets := [] }], fresh := 0 }

/-- A well-formed UUID-shaped asset identifier used by the binder witnesses. -/
def uuidW : String := "550e8400-e29b-41d4-a716-446655440000"

/-- A degenerate upstream state: the stored album carries an empty
    identifier while its display name matches Memos up to case. The binder
    then resolves an empty album identifier, falls through to creation on
    every invocation, and so creates duplicate albums. -/
def srvBad : Server :=
  { albums := [{ id := "", albumName := "memos", name := "", assets := [] }], fresh := 0 }

/-! ### Prober lemmas -/

theorem doJSONWithFallbackAux_ok {β : Type} (attempt : String → Except ImmichError β)
    (pre : List String) (hpre : ∀ q ∈ pre, retryableErr (attempt q) = true)
    (p : String) (post : List String) (b : β) (hp : attempt p = .ok b) :
    ∀ last, doJSONWithFallbackAux attempt (pre ++ p :: post) last = (some b, none) := by
  induction pre with
  | nil =>
    intro last
    simp only [List.nil_append, doJSONWithFallbackAux, hp]
  | cons q rest ih =>
    intro last
    have hq : retryableErr (attempt q) = true := hpre q (by simp)
    cases hattempt : attempt q with
    | ok val =>
      rw [hattempt] at hq
      simp [retryableErr] at hq
    | error e2 =>
      rw [hattempt] at hq
      simp only [retryableErr] at hq
      simp only [List.cons_append, doJSONWithFallbackAux, hattempt, hq, if_true]
      exact ih (fun q2 hq2 => hpre q2 (List.mem_cons_of_mem q hq2)) (some e2)

theorem doJSONWithFallbackAux_fatal {β : Type} (attempt : String → Except ImmichError β)
    (pre : List String) (hpre : ∀ q ∈ pre, retryableErr (attempt q) = true)
    (p : String) (post : List String) (e2 : ImmichError)
    (hp : attempt p = .error e2) (hf : isRetryableImmichPath e2 = false) :
    ∀ last, doJSONWithFallbackAux attempt (pre ++ p :: post) last = (none, some e2) := by
  induction pre with
  | nil =>
    intro last
    simp [doJSONWithFallbackAux, hp, hf]
  | cons q rest ih =>
    intro last
    have hq : retryableErr (attempt q) = true := hpre q (by simp)
    cases hattempt : attempt q with
    | ok val =>
      rw [hattempt] at hq
      simp [retryableErr] at hq
    | error eq2 =>
      rw [hattempt] at hq
      simp only [retryableErr] at hq
      simp only [List.cons_append, doJSONWithFallbackAux, hattempt, hq, if_true]
      exact ih (fun q2 hq2 => hpre q2 (List.mem_cons_of_mem q hq2)) (some eq2)

theorem doJSONWithFallbackAux_exhausted {β : Type} (attempt : String → Except ImmichError β)
    (pre : List String) (hpre : ∀ q ∈ pre, retryableErr (attempt q) = true)
    (p : String) (e2 : ImmichError)
    (hp : attempt p = .error e2) (hr : isRetryableImmichPath e2 = true) :
    ∀ last, doJSONWithFallbackAux attempt (pre ++ [p]) last = (none, some e2) := by
  induction pre with
  | nil =>
    intro last
    simp only [List.nil_append, doJSONWithFallbackAux, hp, hr, if_true]
  | cons q rest ih =>
    intro last
    have hq : retryableErr (attempt q) = true := hpre q (by simp)
    cases hattempt : attempt q with
    | ok val =>
      rw [hattempt] at hq
      simp [retryableErr] at hq
    | error eq2 =>
      rw [hattempt] at hq
      simp only [retryableErr] at hq
      simp only [List.cons_append, doJSONWithFallbackAux, hattempt, hq, if_true]
      exact ih (fun q2 hq2 => hpre q2 (List.mem_cons_of_mem q hq2)) (some eq2)

/-- Claim C1: the prober attempts candidates strictly in list order; the
    first candidate whose attempt succeeds with a 2xx status has its body
    returned; a 404 or 405 status failure is retryable and probing moves to
    the next candidate; any other failure is returned immediately without
    attempting later candidates; and when every candidate fails retryably
    the error of the last attempted candidate is returned. Stated for an
    arbitrary decomposition pre ++ p :: post in which every candidate
    before p fails retryably. -/
theorem doJSONWithFallback_contract {β : Type} (attempt : String → Except ImmichError β)
    (pre post : List String) (p : String)
    (hpre : ∀ q ∈ pre, retryableErr (attempt q) = true) :
    (∀ b, attempt p = .ok b →
      doJSONWithFallback attempt (pre ++ p :: post) = (some b, none)) ∧
    (∀ e2, attempt p = .error e2 → isRetryableImmichPath e2 = false →
      doJSONWithFallback attempt (pre ++ p :: post) = (none, some e2)) ∧
    (∀ e2, attempt p = .error e2 → isRetryableImmichPath e2 = true →
      doJSONWithFallback attempt (pre ++ [p]) = (none, some e2)) := by
  refine ⟨?_, ?_, ?_⟩
  · intro b hp
    exact doJSONWithFallbackAux_ok attempt pre hpre p post b hp none
  · intro e2 hp hf
    exact doJSONWithFallbackAux_fatal attempt pre hpre p post e2 hp hf none
  · intro e2 hp hr
    exact doJSONWithFallbackAux_exhausted attempt pre hpre p e2 hp hr none


/-- Witness for claim C1: with candidates [a, b, c], a failing retryably and
    b succeeding, the prober returns the body of b. -/
theorem doJSONWithFallback_contract_witness :
    doJSONWithFallback probeAttemptEx ["a", "b", "c"] = (some 7, none) :=
  (doJSONWithFallback_contract probeAttemptEx ["a"] ["c"] "b"
    (by decide)).1 7 rfl

/-- Claim C6 counterexample: on the empty candidate list the prober returns
    a nil body together with a nil error, i.e. it reports success even
    though no candidate was attempted; the claim says it returns an error. -/
theorem doJSONWithFallback_empty_counterexample :
    doJSONWithFallback (fun _ => (Except.error (ImmichError.transport "down") : Except ImmichError Nat)) []
      = (none, none) := rfl

/-- Claim C6 (amended): calling the prober with an empty candidate list
    returns a nil body and a nil error, so the caller observes a vacuous
    success carrying no data; no candidate is attempted. -/
theorem doJSONWithFallback_empty (β : Type) (attempt : String → Except ImmichError β) :
    doJSONWithFallback attempt [] = (none, none) := rfl


/-! ### Normalizer lemmas and claims C2, C3 -/

theorem idScanAux (s t : String) :
    (if s == "" then
       match findUUIDSub t with
       | some m => m
       | none => s
     else s)
    = (if s == "" then
        match findUUIDSub t with
        | some m => m
        | none => ""
       else s) := by
  by_cases h : s == ""
  · have hEq : s = "" := by simpa using h
    subst hEq
    rfl
  · simp [h]

theorem normalizeAssetID_eq_spec (a : Asset) (t : String) :
    normalizeAssetID a t = specAssetID a t := by
  unfold normalizeAssetID specAssetID
  by_cases h1 : a.id = "" <;> by_cases h2 : a.assetId = "" <;>
    by_cases h3 : a.deviceAssetId = "" <;> by_cases h4 : a.uuid = "" <;>
    simp [h1, h2, h3, h4, firstNonEmptyStr] <;>
    first
      | rfl
      | (exact idScanAux _ t)
      | (split <;> simp_all)

/-- Claim C3: for every raw per-asset JSON record that unmarshals, the
    normalized asset has the identifier described by the spec: first
    non-empty of id, assetId, deviceAssetId, uuid in that order, leading
    slash characters stripped, then (if still empty) the first UUID-shaped
    substring of the raw record text, else left empty; all other fields are
    kept unchanged. -/
theorem decodeAssetRaw_id (raw : JVal) (a : Asset) (h : unmarshalAsset raw = .ok a) :
    decodeAssetRaw raw = .ok { a with id := specAssetID a (renderJVal raw) } := by
  simp [decodeAssetRaw, h, normalizeAssetID_eq_spec]

/-- Witness for claim C3, covering both examples from the claim: a record
    carrying only assetId normalizes to that identifier, and a record whose
    id field is /abc-123 normalizes to abc-123. -/
theorem decodeAssetRaw_id_witness :
    decodeAssetRaw (JVal.obj [("assetId", JVal.str "X")]) =
      Except.ok { zeroAsset with assetId := "X", id := "X" } ∧
    decodeAssetRaw (JVal.obj [("id", JVal.str "/abc-123")]) =
      Except.ok { zeroAsset with id := "abc-123" } := by
  constructor
  · have h := decodeAssetRaw_id (JVal.obj [("assetId", JVal.str "X")])
      { zeroAsset with assetId := "X" } (by decide)
    rw [h]
    decide
  · have h := decodeAssetRaw_id (JVal.obj [("id", JVal.str "/abc-123")])
      { zeroAsset with id := "/abc-123" } (by decide)
    rw [h]
    decide

theorem decodeAssetSlice_forall2 (recs : List JVal) (assets : List Asset)
    (h : List.Forall₂ (fun raw asset => decodeAssetRaw raw = Except.ok asset) recs assets) :
    decodeAssetSlice recs = .ok assets := by
  induction h with
  | nil => rfl
  | cons hd _ ih => simp [decodeAssetSlice, hd, ih]

/-- Claim C2: each of the four supported list envelopes containing N
    well-formed records normalizes to exactly those N assets in input
    order; the two final conjuncts show the priority order, with the assets
    key (array or items-object form) winning over a simultaneously present
    top-level items key. -/
theorem decodeAssetsFromUnknown_envelopes (recs : List JVal) (assets : List Asset)
    (h : List.Forall₂ (fun raw asset => decodeAssetRaw raw = Except.ok asset) recs assets) :
    assets.length = recs.length ∧
    decodeAssetsFromUnknown (.arr recs) = .ok assets ∧
    decodeAssetsFromUnknown (.obj [("assets", .arr recs)]) = .ok assets ∧
    decodeAssetsFromUnknown (.obj [("assets", .obj [("items", .arr recs)])]) = .ok assets ∧
    decodeAssetsFromUnknown (.obj [("items", .arr recs)]) = .ok assets ∧
    (∀ junk : JVal,
      decodeAssetsFromUnknown (.obj [("assets", .arr recs), ("items", junk)]) = .ok assets) ∧
    (∀ junk : JVal,
      decodeAssetsFromUnknown (.obj [("assets", .obj [("items", .arr recs)]), ("items", junk)])
        = .ok assets) := by
  have hslice := decodeAssetSlice_forall2 recs assets h
  refine ⟨(List.Forall₂.length_eq h).symm, ?_, ?_, ?_, ?_, ?_, ?_⟩
  · simp [decodeAssetsFromUnknown, unmarshalRawArray, hslice]
  · simp [decodeAssetsFromUnknown, unmarshalRawArray, unmarshalRawObject, lookupGo, hslice]
  · simp [decodeAssetsFromUnknown, unmarshalRawArray, unmarshalRawObject, lookupGo, hslice]
  · simp [decodeAssetsFromUnknown, unmarshalRawArray, unmarshalRawObject, lookupGo, hslice]
  · intro junk
    simp [decodeAssetsFromUnknown, unmarshalRawArray, unmarshalRawObject, lookupGo, hslice]
  · intro junk
    simp [decodeAssetsFromUnknown, unmarshalRawArray, unmarshalRawObject, lookupGo, hslice]

/-- Witness for claim C2 at a concrete two-record payload wrapped in the
    assets envelope. -/
theorem decodeAssetsFromUnknown_envelopes_witness :
    decodeAssetsFromUnknown (.obj [("assets", .arr
        [JVal.obj [("id", JVal.str "a1")], JVal.obj [("assetId", JVal.str "b2")]])])
      = .ok [{ zeroAsset with id := "a1" }, { zeroAsset with assetId := "b2", id := "b2" }] :=
  (decodeAssetsFromUnknown_envelopes
    [JVal.obj [("id", JVal.str "a1")], JVal.obj [("assetId", JVal.str "b2")]]
    [{ zeroAsset with id := "a1" }, { zeroAsset with assetId := "b2", id := "b2" }]
    (List.Forall₂.cons (by decide)
      (List.Forall₂.cons (by decide) List.Forall₂.nil))).2.2.1


/-! ### String lemmas -/

theorem strDataAppend (a b : String) : (a ++ b).data = a.data ++ b.data := by
  cases a
  cases b
  rfl

theorem strMkData (s : String) : String.mk s.data = s := rfl

theorem hasPrefixL_append (p r : List Char) : hasPrefixL (p ++ r) p = true := by
  induction p with
  | nil => cases r <;> rfl
  | cons c cs ih => simp [hasPrefixL, ih]

theorem goHasPre_append (p r : String) : goHasPre (p ++ r) p = true := by
  unfold goHasPre
  rw [strDataAppend]
  exact hasPrefixL_append p.data r.data

theorem goTrimPre_append (p r : String) : goTrimPre (p ++ r) p = r := by
  unfold goTrimPre
  rw [goHasPre_append]
  simp only [if_true]
  rw [strDataAppend, List.drop_left, strMkData]

theorem hasPrefixL_drop (s p : List Char) (h : hasPrefixL s p = true) :
    p ++ s.drop p.length = s := by
  induction p generalizing s with
  | nil => simp
  | cons pc ps ih =>
    cases s with
    | nil => exact absurd h (by simp [hasPrefixL])
    | cons c cs =>
      unfold hasPrefixL at h
      rw [Bool.and_eq_true] at h
      have hc : c = pc := by simpa using h.1
      subst hc
      simp only [List.length_cons, List.drop_succ_cons, List.cons_append, List.cons.injEq,
        true_and]
      exact ih cs h.2

/-! ### Claim C7 (reference decode) -/

/-- Claim C7 counterexample: on the input immich:/abc the decoder returns
    the remainder /abc with its leading slash intact, not abc as the claim
    describes. -/
theorem ParseReference_counterexample :
    ParseReference "immich:/abc" = ("/abc", true) ∧ ("/abc" : String) ≠ "abc" := by
  constructor
  · decide
  · decide

/-- Claim C7 (amended): for every string beginning with immich:,
    ParseReference returns the remainder after the prefix unchanged (no
    slash trimming is applied), and reports valid exactly when that
    remainder is non-empty; every other string reports not-a-reference. -/
theorem ParseReference_spec (s rest : String) :
    (s = "immich:" ++ rest → ParseReference s = (rest, rest != "")) ∧
    (goHasPre s "immich:" = false → ParseReference s = ("", false)) := by
  constructor
  · intro hs
    subst hs
    unfold ParseReference
    rw [goHasPre_append]
    simp [goTrimPre_append]
  · intro hnp
    simp [ParseReference, hnp]

/-- Witness for claim C7: decode of immich:1234 yields (1234, true) and
    decode of not-a-ref yields not-a-reference. -/
theorem ParseReference_spec_witness :
    ParseReference "immich:1234" = ("1234", true) ∧ ParseReference "not-a-ref" = ("", false) := by
  constructor
  · have h := (ParseReference_spec "immich:1234" "1234").1 (by decide)
    simpa using h
  · exact (ParseReference_spec "not-a-ref" "").2 (by decide)

/-! ### Claim C9 (router fallback) -/

/-- Claim C9 counterexample: the asset-listing route handler, given a fatal
    non-retryable ListAssets failure and a successful SearchAssets outcome,
    returns the SearchAssets success: the fatal error is not surfaced and a
    different logical call is silently issued in its place. -/
theorem listAssetsHandler_counterexample :
    listAssetsHandler (Except.error (ImmichError.httpStatus 500 "boom")) (Except.ok 0)
      = Except.ok 0 ∧
    isRetryableImmichPath (ImmichError.httpStatus 500 "boom") = false :=
  ⟨rfl, rfl⟩

/-- Claim C9 (amended): inside the adapter a fatal error aborts probing and
    is surfaced as-is, but the asset-listing route handler retries across a
    logical-operation boundary: on any ListAssets failure, fatal included,
    it silently issues SearchAssets in its place and returns its success;
    only when that also fails does it surface an error, namely the
    SearchAssets error wrapped as a gateway error. -/
theorem listAssetsHandler_fallback {ρ : Type} (listRes searchRes : Except ImmichError ρ) :
    (∀ res, listRes = .ok res → listAssetsHandler listRes searchRes = .ok res) ∧
    (∀ e2 res, listRes = .error e2 → searchRes = .ok res →
      listAssetsHandler listRes searchRes = .ok res) ∧
    (∀ e2 e3, listRes = .error e2 → searchRes = .error e3 →
      listAssetsHandler listRes searchRes
        = .error (.gateway "failed to fetch immich assets" e3)) := by
  refine ⟨?_, ?_, ?_⟩
  · intro res h
    subst h
    rfl
  · intro e2 res h1 h2
    subst h1
    subst h2
    rfl
  · intro e2 e3 h1 h2
    subst h1
    subst h2
    rfl

/-- Witness for claim C9 (amended) at a concrete fatal failure. -/
theorem listAssetsHandler_fallback_witness :
    listAssetsHandler (Except.error (ImmichError.httpStatus 500 "down")) (Except.ok 3)
      = Except.ok 3 :=
  (listAssetsHandler_fallback (Except.error (ImmichError.httpStatus 500 "down"))
    (Except.ok 3)).2.1 (ImmichError.httpStatus 500 "down") 3 rfl rfl

/-! ### UUID-scan lemmas -/

theorem findUUIDChars_dropWhile (p : Char → Bool) (cs : List Char)
    (h : findUUIDChars cs = none) : findUUIDChars (cs.dropWhile p) = none := by
  induction cs with
  | nil => simpa using h
  | cons c rest ih =>
    unfold findUUIDChars at h
    cases hm : matchShapeAt uuidShape (c :: rest) with
    | some ms =>
      rw [hm] at h
      cases h
    | none =>
      rw [hm] at h
      by_cases hp : p c = true
      · simp only [List.dropWhile, hp]
        exact ih h
      · simp only [List.dropWhile, hp]
        unfold findUUIDChars
        rw [hm]
        exact h

theorem uuidMatch_trim (s : String) (h : uuidMatchString s = false) :
    uuidMatchString (trimLeftSlashes s) = false := by
  unfold uuidMatchString at h ⊢
  have hn : findUUIDChars s.data = none := by
    cases hfc : findUUIDChars s.data with
    | none => rfl
    | some ms =>
      rw [hfc] at h
      simp at h
  unfold trimLeftSlashes
  rw [findUUIDChars_dropWhile (fun c => c == '/') s.data hn]
  rfl

/-! ### Claim C10 (prefix-form extraction, no UUID validation) -/

theorem dropColonOfSchemeAppend (rr : List Char) :
    ("immich://".data ++ rr).drop "immich:".data.length = '/' :: '/' :: rr := rfl

theorem dropSchemeOfSchemeAppend (rr : List Char) :
    ("immich://".data ++ rr).drop "immich://".data.length = rr := rfl

theorem trimTwoSlashes (rr : List Char) :
    List.dropWhile (fun c => c == '/') ('/' :: '/' :: rr)
      = List.dropWhile (fun c => c == '/') rr := rfl

/-- Claim C10: a link whose trimmed form begins with immich: (hence also
    one beginning with immich://, whose extraction this subsumes after
    slash trimming) extracts the remainder after the prefix with leading
    slashes trimmed, successful exactly when non-empty, with no UUID-shape
    validation; and any identifier without a UUID-shaped substring is a
    silent success no-op for the Album Binder. -/
theorem extractImmichColonLink (link : String) (cfg : Config)
    (h : goHasPre (goTrimSpace link) "immich:" = true) :
    (ExtractAssetIDFromLink link cfg =
      (trimLeftSlashes (goTrimPre (goTrimSpace link) "immich:"),
       trimLeftSlashes (goTrimPre (goTrimSpace link) "immich:") != "")) ∧
    (goHasPre (goTrimSpace link) "immich://" = true →
      ExtractAssetIDFromLink link cfg =
        (trimLeftSlashes (goTrimPre (goTrimSpace link) "immich://"),
         trimLeftSlashes (goTrimPre (goTrimSpace link) "immich://") != "")) ∧
    (∀ (cfg2 : Config) (aid : String) (srv : Server),
      uuidMatchString aid = false → AddAssetToAlbum cfg2 aid srv = (none, srv, [])) := by
  have ht : (goTrimSpace link == "") = false := by
    cases htb0 : (goTrimSpace link == "") with
    | false => rfl
    | true =>
      have hEq : goTrimSpace link = "" := by simpa using htb0
      rw [hEq] at h
      exact absurd h (by decide)
  have hfirst : ExtractAssetIDFromLink link cfg =
      (trimLeftSlashes (goTrimPre (goTrimSpace link) "immich:"),
       trimLeftSlashes (goTrimPre (goTrimSpace link) "immich:") != "") := by
    simp [ExtractAssetIDFromLink, ht, h]
  refine ⟨hfirst, ?_, ?_⟩
  · intro h2
    have hkey : trimLeftSlashes (goTrimPre (goTrimSpace link) "immich:")
        = trimLeftSlashes (goTrimPre (goTrimSpace link) "immich://") := by
      unfold goTrimPre
      rw [h, h2]
      simp only [if_true]
      unfold goHasPre at h2
      have hdec := hasPrefixL_drop (goTrimSpace link).data "immich://".data h2
      rw [← hdec, dropColonOfSchemeAppend, dropSchemeOfSchemeAppend]
      unfold trimLeftSlashes
      rfl
    rw [hfirst, hkey]
  · intro cfg2 aid srv huuid
    by_cases ha : aid = ""
    · simp [AddAssetToAlbum, ha]
    · have huuid2 := uuidMatch_trim aid huuid
      simp [AddAssetToAlbum, ha, huuid2]


/-- Witness for claim C10: immich:hello extracts (hello, true) with no UUID
    validation, and the Album Binder silently no-ops on hello. -/
theorem extractImmichColonLink_witness :
    ExtractAssetIDFromLink "immich:hello" cfgEx = ("hello", true) ∧
    AddAssetToAlbum cfgEx "hello" srvEx = (none, srvEx, []) := by
  have h := extractImmichColonLink "immich:hello" cfgEx (by decide)
  constructor
  · rw [h.1]
    decide
  · exact h.2.2 cfgEx "hello" srvEx (by decide)

/-! ### Claim C8 (generic URL extraction) -/

/-- Claim C8: a link carrying neither reference prefix is parsed as a URL
    and extraction behaves exactly as the claim-side description
    specExtractGeneric: failure on unparseable links or links without a
    host, the case-insensitive host gate when a base URL is configured, the
    UUID scan of the path with the query values consulted only when the
    path has no match, and a not-found result instead of an exception in
    every failing case. -/
theorem extractGenericLink (link : String) (cfg : Config)
    (h1 : goHasPre (goTrimSpace link) "immich:" = false)
    (h2 : goHasPre (goTrimSpace link) "immich://" = false) :
    ExtractAssetIDFromLink link cfg = specExtractGeneric (parseURLGo (goTrimSpace link)) cfg := by
  by_cases ht : goTrimSpace link = ""
  · unfold ExtractAssetIDFromLink
    rw [ht]
    rfl
  · have htb : (goTrimSpace link == "") = false := by
      cases htb0 : (goTrimSpace link == "") with
      | false => rfl
      | true => exact absurd (by simpa using htb0) ht
    unfold ExtractAssetIDFromLink
    simp only [htb, h1, h2, Bool.false_eq_true, if_false]
    cases hu : parseURLGo (goTrimSpace link) with
    | none => rfl
    | some u =>
      cases hh : (u.host == "") with
      | true => simp [specExtractGeneric, hh]
      | false =>
        cases hb : (cfg.baseURL != "") with
        | false =>
          simp [specExtractGeneric, hh, hb, extractFromParsedURL]
        | true =>
          cases hpb : parseURLGo cfg.baseURL with
          | none => simp [specExtractGeneric, baseHostMatches, hh, hb, hpb]
          | some base =>
            cases hbh : (base.host == "") with
            | true =>
              have hbe : base.host = "" := by simpa using hbh
              simp [specExtractGeneric, baseHostMatches, hh, hb, hpb, hbh, hbe]
            | false =>
              have hbe : ¬(base.host = "") := by simpa using hbh
              cases hef : equalFold u.host base.host with
              | true =>
                simp [specExtractGeneric, baseHostMatches, extractFromParsedURL,
                  hh, hb, hpb, hbh, hbe, hef]
              | false =>
                simp [specExtractGeneric, baseHostMatches, hh, hb, hpb, hbh, hbe, hef]


/-- Witness for claim C8: the share link of the claim yields its UUID under
    the matching base host and not-found under a mismatching base host. -/
theorem extractGenericLink_witness :
    ExtractAssetIDFromLink
        "https://photos.example/share/550e8400-e29b-41d4-a716-446655440000" cfgHostMatch
      = ("550e8400-e29b-41d4-a716-446655440000", true) ∧
    ExtractAssetIDFromLink
        "https://photos.example/share/550e8400-e29b-41d4-a716-446655440000" cfgHostOther
      = ("", false) := by
  constructor
  · rw [extractGenericLink _ _ (by decide) (by decide)]
    decide
  · rw [extractGenericLink _ _ (by decide) (by decide)]
    decide

/-! ### Album Binder lemmas -/

theorem equalFold_refl (s : String) : equalFold s s = true := by
  simp [equalFold]

theorem mapToAlbum_update (l : List SAlbum) (albumID : String) (ids : List String) :
    (l.map (fun sa => if sa.id == albumID then { sa with assets := sa.assets ++ ids } else sa)).map
        toAlbum
      = l.map toAlbum := by
  induction l with
  | nil => rfl
  | cons sa rest ih =>
    simp only [List.map_cons, ih, List.cons.injEq, and_true]
    by_cases hsa : (sa.id == albumID) = true
    · simp [hsa, toAlbum]
    · simp [hsa]

theorem listAlbumsServer_addAssets (srv : Server) (albumID : String) (ids : List String) :
    listAlbumsServer (addAssetsServer srv albumID ids) = listAlbumsServer srv := by
  unfold listAlbumsServer addAssetsServer
  exact mapToAlbum_update srv.albums albumID ids

theorem addAssetsServer_length (srv : Server) (albumID : String) (ids : List String) :
    (addAssetsServer srv albumID ids).albums.length = srv.albums.length := by
  simp [addAssetsServer]

theorem anyId_update (l : List SAlbum) (albumID x : String) (ids : List String) :
    (l.map (fun sa => if sa.id == albumID then { sa with assets := sa.assets ++ ids } else sa)).any
        (fun sa => sa.id == x)
      = l.any (fun sa => sa.id == x) := by
  induction l with
  | nil => rfl
  | cons sa rest ih =>
    simp only [List.map_cons, List.any_cons]
    rw [ih]
    by_cases hsa : sa.id = albumID
    · simp [hsa]
    · simp [hsa]

theorem albumExists_addAssets (srv : Server) (albumID : String) (ids : List String) (x : String) :
    albumExists (addAssetsServer srv albumID ids) x = albumExists srv x := by
  unfold albumExists addAssetsServer
  exact anyId_update srv.albums albumID x ids

theorem findMatchingAlbum_mem (name : String) (l : List Album) (al : Album)
    (h : findMatchingAlbum name l = some al) : al ∈ l := by
  induction l with
  | nil => cases h
  | cons x rest ih =>
    unfold findMatchingAlbum at h
    by_cases hx : equalFold x.displayName name = true
    · rw [if_pos hx] at h
      cases h
      exact List.mem_cons_self _ _
    · rw [if_neg hx] at h
      exact List.mem_cons_of_mem x (ih h)

theorem memListAlbums_exists (srv : Server) (al : Album) (h : al ∈ listAlbumsServer srv) :
    albumExists srv al.id = true := by
  unfold listAlbumsServer at h
  obtain ⟨sa, hsa, heq⟩ := List.mem_map.mp h
  unfold albumExists
  rw [List.any_eq_true]
  refine ⟨sa, hsa, ?_⟩
  rw [← heq]
  simp [toAlbum]

theorem findMatchingAlbum_isSome (name : String) (l : List Album)
    (h : ∃ al ∈ l, equalFold al.displayName name = true) :
    (findMatchingAlbum name l).isSome = true := by
  induction l with
  | nil =>
    obtain ⟨al, hm, _⟩ := h
    cases hm
  | cons x rest ih =>
    unfold findMatchingAlbum
    by_cases hx : equalFold x.displayName name = true
    · simp [hx]
    · rw [if_neg hx]
      apply ih
      obtain ⟨al, hm, hfold⟩ := h
      cases List.mem_cons.mp hm with
      | inl heq =>
        subst heq
        exact absurd hfold hx
      | inr hmem => exact ⟨al, hmem, hfold⟩

theorem findMatchingAlbum_append (name : String) (l1 l2 : List Album) :
    findMatchingAlbum name (l1 ++ l2) =
      match findMatchingAlbum name l1 with
      | some al => some al
      | none => findMatchingAlbum name l2 := by
  induction l1 with
  | nil => rfl
  | cons x rest ih =>
    by_cases hx : equalFold x.displayName name = true
    · simp [findMatchingAlbum, hx]
    · simp [findMatchingAlbum, hx, ih]

theorem displayName_create (name : String) (srv : Server) :
    (createAlbumServer name srv).1.displayName = name := by
  unfold createAlbumServer toAlbum Album.displayName
  by_cases h : name = ""
  · simp [h]
  · simp [h]

theorem createAlbumServer_length (name : String) (srv : Server) :
    (createAlbumServer name srv).2.albums.length = srv.albums.length + 1 := by
  simp [createAlbumServer]

theorem listAlbumsServer_create (name : String) (srv : Server) :
    listAlbumsServer (createAlbumServer name srv).2
      = listAlbumsServer srv ++ [(createAlbumServer name srv).1] := by
  simp [createAlbumServer, listAlbumsServer]

theorem albumExists_create (name : String) (srv : Server) :
    albumExists (createAlbumServer name srv).2 (createAlbumServer name srv).1.id = true := by
  simp [createAlbumServer, albumExists, toAlbum]

theorem findMatchingAlbum_created (name : String) (srv : Server)
    (hf : findMatchingAlbum name (listAlbumsServer srv) = none) :
    findMatchingAlbum name (listAlbumsServer (createAlbumServer name srv).2)
      = some (createAlbumServer name srv).1 := by
  rw [listAlbumsServer_create, findMatchingAlbum_append, hf]
  simp [findMatchingAlbum, displayName_create, equalFold_refl]

/-- The gate conditions of AddAssetToAlbum make the whole operation a
    success no-op touching no server state, with an empty operation trace. -/
theorem addAssetToAlbum_gateNoopT (cfg : Config) (assetID : String) (srv : Server)
    (h : assetID = "" ∨ uuidMatchString (trimLeftSlashes assetID) = false ∨ cfg.baseURL = ""
      ∨ cfg.apiKey = "" ∨ (cfg.albumID = "" ∧ cfg.albumName = "")) :
    AddAssetToAlbum cfg assetID srv = (none, srv, []) := by
  by_cases ha : assetID = ""
  · simp [AddAssetToAlbum, ha]
  cases hu : uuidMatchString (trimLeftSlashes assetID) with
  | false => simp [AddAssetToAlbum, ha, hu]
  | true =>
    rcases h with h1 | h2 | h3 | h4 | ⟨h5, h6⟩
    · exact absurd h1 ha
    · rw [h2] at hu
      exact Bool.noConfusion hu
    · simp [AddAssetToAlbum, ha, hu, h3]
    · simp [AddAssetToAlbum, ha, hu, h4]
    · cases hg : (cfg.baseURL == "" || cfg.apiKey == "") with
      | true => simp [AddAssetToAlbum, ha, hu, hg]
      | false => simp [AddAssetToAlbum, ha, hu, hg, h5, h6]

/-- Idempotence facts follow directly when every invocation is a gate
    no-op. -/
theorem idem_of_noop (cfg : Config) (assetID : String) (srv : Server)
    (hno : ∀ s2 : Server, AddAssetToAlbum cfg assetID s2 = (none, s2, [])) :
    (AddAssetToAlbum cfg assetID (AddAssetToAlbum cfg assetID srv).2.1).2.1.albums.length
      = (AddAssetToAlbum cfg assetID srv).2.1.albums.length ∧
    (AddAssetToAlbum cfg assetID srv).2.1.albums.length ≤ srv.albums.length + 1 ∧
    ((∃ al ∈ listAlbumsServer srv, equalFold al.displayName cfg.albumName = true) →
      (AddAssetToAlbum cfg assetID srv).2.1.albums.length = srv.albums.length) ∧
    ((AddAssetToAlbum cfg assetID srv).1 = none →
      (AddAssetToAlbum cfg assetID (AddAssetToAlbum cfg assetID srv).2.1).1 = none) := by
  refine ⟨by simp [hno], ?_, by intro _; simp [hno], by intro _; simp [hno]⟩
  simp only [hno]
  omega

theorem albumFreshIdNe (t : String) : (("album-" ++ t) == "") = false := by
  cases hb : (("album-" ++ t) == "") with
  | false => rfl
  | true =>
    have hc : ("album-" ++ t) = "" := by simpa using hb
    have hd := congrArg String.data hc
    rw [strDataAppend] at hd
    exact absurd hd (by
      simp [show "album-".data = 'a' :: 'l' :: 'b' :: 'u' :: 'm' :: '-' :: [] from rfl,
            show ("" : String).data = ([] : List Char) from rfl])

theorem createAlbumServer_id_ne (name : String) (srv : Server) :
    ((createAlbumServer name srv).1.id == "") = false :=
  albumFreshIdNe (toString srv.fresh)

theorem memListAlbums_id_ne (srv : Server) (al : Album)
    (hmem : al ∈ listAlbumsServer srv)
    (hwf : ∀ sa ∈ srv.albums, sa.id ≠ "") :
    (al.id == "") = false := by
  unfold listAlbumsServer at hmem
  obtain ⟨sa, hsa, heq⟩ := List.mem_map.mp hmem
  rw [← heq]
  simpa [toAlbum] using hwf sa hsa

/-- Claim C4 counterexample: at a server whose single stored album matches
    the configured name case-insensitively but carries an empty identifier,
    the binder resolves an empty album identifier, so both invocations fall
    through to album creation: two calls grow one stored album into three,
    the second call itself creating a duplicate even though a matching
    album existed throughout. -/
theorem AddAssetToAlbum_idempotent_counterexample :
    (AddAssetToAlbum cfgEx uuidW (AddAssetToAlbum cfgEx uuidW srvBad).2.1).2.1.albums.length
      = 3 ∧
    (AddAssetToAlbum cfgEx uuidW srvBad).2.1.albums.length = 2 ∧
    srvBad.albums.length = 1 ∧
    (∃ al ∈ listAlbumsServer srvBad, equalFold al.displayName cfgEx.albumName = true) := by
  refine ⟨by decide, by decide, rfl, ?_⟩
  exact ⟨{ id := "", albumName := "memos", name := "" }, by decide, by decide⟩

/-- Claim C4 (amended): provided every album stored upstream carries a
    non-empty identifier, invoking the Album Binder twice in sequence with
    the same asset and the same configured album creates no album on the
    second invocation, creates at most one album overall, reuses an
    existing album whose display name case-insensitively equals the
    configured name (creating none in that case), and the second invocation
    returns success whenever the first did, even though the asset is then
    already a member. Without the proviso, a name-matched album with an
    empty identifier makes every invocation fall through to album creation. -/
theorem AddAssetToAlbum_idempotent (cfg : Config) (assetID : String) (srv : Server)
    (hwf : ∀ sa ∈ srv.albums, sa.id ≠ "") :
    (AddAssetToAlbum cfg assetID (AddAssetToAlbum cfg assetID srv).2.1).2.1.albums.length
      = (AddAssetToAlbum cfg assetID srv).2.1.albums.length ∧
    (AddAssetToAlbum cfg assetID srv).2.1.albums.length ≤ srv.albums.length + 1 ∧
    ((∃ al ∈ listAlbumsServer srv, equalFold al.displayName cfg.albumName = true) →
      (AddAssetToAlbum cfg assetID srv).2.1.albums.length = srv.albums.length) ∧
    ((AddAssetToAlbum cfg assetID srv).1 = none →
      (AddAssetToAlbum cfg assetID (AddAssetToAlbum cfg assetID srv).2.1).1 = none) := by
  by_cases ha : assetID = ""
  · exact idem_of_noop cfg assetID srv
      (fun s2 => addAssetToAlbum_gateNoopT cfg assetID s2 (Or.inl ha))
  cases hu : uuidMatchString (trimLeftSlashes assetID) with
  | false =>
    exact idem_of_noop cfg assetID srv
      (fun s2 => addAssetToAlbum_gateNoopT cfg assetID s2 (Or.inr (Or.inl hu)))
  | true =>
  cases hg3 : (cfg.baseURL == "" || cfg.apiKey == "") with
  | true =>
    have h3 : cfg.baseURL = "" ∨ cfg.apiKey = "" := by simpa using hg3
    cases h3 with
    | inl h3a =>
      exact idem_of_noop cfg assetID srv
        (fun s2 => addAssetToAlbum_gateNoopT cfg assetID s2 (Or.inr (Or.inr (Or.inl h3a))))
    | inr h3b =>
      exact idem_of_noop cfg assetID srv
        (fun s2 => addAssetToAlbum_gateNoopT cfg assetID s2
          (Or.inr (Or.inr (Or.inr (Or.inl h3b)))))
  | false =>
  cases hg4 : (cfg.albumID == "" && cfg.albumName == "") with
  | true =>
    have h4 : cfg.albumID = "" ∧ cfg.albumName = "" := by simpa using hg4
    exact idem_of_noop cfg assetID srv
      (fun s2 => addAssetToAlbum_gateNoopT cfg assetID s2 (Or.inr (Or.inr (Or.inr (Or.inr h4)))))
  | false =>
  cases hid : (cfg.albumID != "") with
  | true =>
    have hane : (cfg.albumID == "") = false := by simpa [bne] using hid
    have hcall : ∀ s2 : Server, AddAssetToAlbum cfg assetID s2 =
        AddAssetsToAlbum cfg.albumID [trimLeftSlashes assetID] s2 := by
      intro s2
      simp [AddAssetToAlbum, ha, hu, hg3, hg4, hid]
    cases hex : albumExists srv cfg.albumID with
    | true =>
      have ho1 : AddAssetsToAlbum cfg.albumID [trimLeftSlashes assetID] srv
          = (none, addAssetsServer srv cfg.albumID [trimLeftSlashes assetID],
             [Op.addAssets cfg.albumID [trimLeftSlashes assetID]]) := by
        simp [AddAssetsToAlbum, hane, hex]
      have hex2 : albumExists (addAssetsServer srv cfg.albumID [trimLeftSlashes assetID])
          cfg.albumID = true := by
        rw [albumExists_addAssets]
        exact hex
      have ho2 : AddAssetsToAlbum cfg.albumID [trimLeftSlashes assetID]
          (addAssetsServer srv cfg.albumID [trimLeftSlashes assetID])
          = (none,
             addAssetsServer (addAssetsServer srv cfg.albumID [trimLeftSlashes assetID])
               cfg.albumID [trimLeftSlashes assetID],
             [Op.addAssets cfg.albumID [trimLeftSlashes assetID]]) := by
        simp [AddAssetsToAlbum, hane, hex2]
      refine ⟨?_, ?_, ?_, ?_⟩
      · simp [hcall, ho1, ho2, addAssetsServer_length]
      · simp only [hcall, ho1]
        simp only [addAssetsServer_length]
        omega
      · intro _
        simp [hcall, ho1, addAssetsServer_length]
      · intro _
        simp [hcall, ho1, ho2]
    | false =>
      have ho1 : AddAssetsToAlbum cfg.albumID [trimLeftSlashes assetID] srv
          = (some "immich request failed: 404", srv,
             [Op.addAssets cfg.albumID [trimLeftSlashes assetID],
              Op.addAssets cfg.albumID [trimLeftSlashes assetID]]) := by
        simp [AddAssetsToAlbum, hane, hex]
      refine ⟨?_, ?_, ?_, ?_⟩
      · simp [hcall, ho1]
      · simp only [hcall, ho1]
        omega
      · intro _
        simp [hcall, ho1]
      · intro hcon
        rw [hcall, ho1] at hcon
        simp at hcon
  | false =>
  cases hf : findMatchingAlbum cfg.albumName (listAlbumsServer srv) with
  | some al =>
    have hmem := findMatchingAlbum_mem cfg.albumName (listAlbumsServer srv) al hf
    have hale : (al.id == "") = false := memListAlbums_id_ne srv al hmem hwf
    have hex : albumExists srv al.id = true := memListAlbums_exists srv al hmem
    have ho1 : AddAssetToAlbum cfg assetID srv =
        (none, addAssetsServer srv al.id [trimLeftSlashes assetID],
         [Op.listAlbums, Op.addAssets al.id [trimLeftSlashes assetID]]) := by
      simp [AddAssetToAlbum, ha, hu, hg3, hg4, hid, hf, AddAssetsToAlbum, hale, hex]
    have hf2 : findMatchingAlbum cfg.albumName
        (listAlbumsServer (addAssetsServer srv al.id [trimLeftSlashes assetID])) = some al := by
      rw [listAlbumsServer_addAssets]
      exact hf
    have hex2 : albumExists (addAssetsServer srv al.id [trimLeftSlashes assetID]) al.id
        = true := by
      rw [albumExists_addAssets]
      exact hex
    have ho2 : AddAssetToAlbum cfg assetID
        (addAssetsServer srv al.id [trimLeftSlashes assetID]) =
        (none,
         addAssetsServer (addAssetsServer srv al.id [trimLeftSlashes assetID]) al.id
           [trimLeftSlashes assetID],
         [Op.listAlbums, Op.addAssets al.id [trimLeftSlashes assetID]]) := by
      simp [AddAssetToAlbum, ha, hu, hg3, hg4, hid, hf2, AddAssetsToAlbum, hale, hex2]
    refine ⟨?_, ?_, ?_, ?_⟩
    · simp [ho1, ho2, addAssetsServer_length]
    · simp only [ho1]
      simp only [addAssetsServer_length]
      omega
    · intro _
      simp [ho1, addAssetsServer_length]
    · intro _
      simp [ho1, ho2]
  | none =>
    have hvac : ¬ (∃ al ∈ listAlbumsServer srv, equalFold al.displayName cfg.albumName = true) := by
      intro hmatch
      have hsome := findMatchingAlbum_isSome cfg.albumName (listAlbumsServer srv) hmatch
      rw [hf] at hsome
      simp at hsome
    have hce : ((createAlbumServer cfg.albumName srv).1.id == "") = false :=
      createAlbumServer_id_ne cfg.albumName srv
    have hexc := albumExists_create cfg.albumName srv
    have ho1 : AddAssetToAlbum cfg assetID srv =
        (none,
         addAssetsServer (createAlbumServer cfg.albumName srv).2
           (createAlbumServer cfg.albumName srv).1.id [trimLeftSlashes assetID],
         [Op.listAlbums, Op.createAlbum cfg.albumName,
          Op.addAssets (createAlbumServer cfg.albumName srv).1.id
            [trimLeftSlashes assetID]]) := by
      simp [AddAssetToAlbum, ha, hu, hg3, hg4, hid, hf, AddAssetsToAlbum, hce, hexc]
    have hf2 : findMatchingAlbum cfg.albumName
        (listAlbumsServer (addAssetsServer (createAlbumServer cfg.albumName srv).2
          (createAlbumServer cfg.albumName srv).1.id [trimLeftSlashes assetID]))
        = some (createAlbumServer cfg.albumName srv).1 := by
      rw [listAlbumsServer_addAssets]
      exact findMatchingAlbum_created cfg.albumName srv hf
    have hex2 : albumExists
        (addAssetsServer (createAlbumServer cfg.albumName srv).2
          (createAlbumServer cfg.albumName srv).1.id [trimLeftSlashes assetID])
        (createAlbumServer cfg.albumName srv).1.id = true := by
      rw [albumExists_addAssets]
      exact hexc
    have ho2 : AddAssetToAlbum cfg assetID
        (addAssetsServer (createAlbumServer cfg.albumName srv).2
          (createAlbumServer cfg.albumName srv).1.id [trimLeftSlashes assetID]) =
        (none,
         addAssetsServer
           (addAssetsServer (createAlbumServer cfg.albumName srv).2
             (createAlbumServer cfg.albumName srv).1.id [trimLeftSlashes assetID])
           (createAlbumServer cfg.albumName srv).1.id [trimLeftSlashes assetID],
         [Op.listAlbums,
          Op.addAssets (createAlbumServer cfg.albumName srv).1.id
            [trimLeftSlashes assetID]]) := by
      simp [AddAssetToAlbum, ha, hu, hg3, hg4, hid, hf2, AddAssetsToAlbum, hce, hex2]
    refine ⟨?_, ?_, ?_, ?_⟩
    · simp [ho1, ho2, addAssetsServer_length]
    · simp only [ho1]
      simp only [addAssetsServer_length, createAlbumServer_length]
      omega
    · intro hmatch
      exact absurd hmatch hvac
    · intro _
      simp [ho1, ho2]

/-- Witness for claim C4 (amended) at a concrete enabled configuration with
    well-formed upstream states: starting from an empty server the second
    invocation adds no album and succeeds, and starting from a server
    already holding a case-insensitively matching album the first
    invocation creates none. -/
theorem AddAssetToAlbum_idempotent_witness :
    ((AddAssetToAlbum cfgEx uuidW (AddAssetToAlbum cfgEx uuidW srvEx).2.1).2.1.albums.length
       = (AddAssetToAlbum cfgEx uuidW srvEx).2.1.albums.length ∧
     (AddAssetToAlbum cfgEx uuidW (AddAssetToAlbum cfgEx uuidW srvEx).2.1).1 = none) ∧
    (AddAssetToAlbum cfgEx uuidW srvWithAlbum).2.1.albums.length
      = srvWithAlbum.albums.length := by
  have h1 := AddAssetToAlbum_idempotent cfgEx uuidW srvEx (by decide)
  have h2 := AddAssetToAlbum_idempotent cfgEx uuidW srvWithAlbum (by decide)
  refine ⟨⟨h1.1, h1.2.2.2 (by decide)⟩, h2.2.2.1 ?_⟩
  refine ⟨{ id := "al-1", albumName := "memos", name := "" }, by decide, by decide⟩

/-- Claim C5: the Album Binder returns success while issuing no upstream
    operation and leaving the server untouched whenever the asset ID is
    empty, the asset ID carries no UUID-shaped substring, the configuration
    is disabled (empty base URL or API key), or neither an album ID nor an
    album name is configured; and a membership-add with an empty asset-ID
    list is likewise a no-op returning no error. -/
theorem AddAssetToAlbum_noop_conditions (cfg : Config) (assetID : String) (srv : Server)
    (h : assetID = "" ∨ uuidMatchString assetID = false ∨ cfg.baseURL = "" ∨ cfg.apiKey = ""
      ∨ (cfg.albumID = "" ∧ cfg.albumName = "")) :
    AddAssetToAlbum cfg assetID srv = (none, srv, []) ∧
    (∀ albumID2 : String, AddAssetsToAlbum albumID2 [] srv = (none, srv, [])) := by
  constructor
  · apply addAssetToAlbum_gateNoopT cfg assetID srv
    rcases h with h1 | h2 | h3 | h4 | h5
    · exact Or.inl h1
    · exact Or.inr (Or.inl (uuidMatch_trim assetID h2))
    · exact Or.inr (Or.inr (Or.inl h3))
    · exact Or.inr (Or.inr (Or.inr (Or.inl h4)))
    · exact Or.inr (Or.inr (Or.inr (Or.inr h5)))
  · intro albumID2
    simp [AddAssetsToAlbum]

/-- Witness for claim C5: a non-UUID asset identifier no-ops against an
    enabled configuration, and a membership-add with no asset IDs no-ops. -/
theorem AddAssetToAlbum_noop_conditions_witness :
    AddAssetToAlbum cfgEx "not-a-uuid" srvEx = (none, srvEx, []) ∧
    AddAssetsToAlbum "al-1" [] srvEx = (none, srvEx, []) := by
  have h := AddAssetToAlbum_noop_conditions cfgEx "not-a-uuid" srvEx
    (Or.inr (Or.inl (by decide)))
  exact ⟨h.1, h.2 "al-1"⟩
